import Mathlib

/-!
Shallow embedding of `SRT.py` (SVF report transformer).

The program enriches static-analysis warning records: it resolves bare
filenames against a directory tree, infers candidate variable names from the
warning line with a lexical filter, excerpts nearby source lines, and tags
each record with a success/failure outcome.

The filesystem is modelled as a finite list of entries, each a relative
path together with its basename and its content as a list of lines (the
result of `readlines`).  Python's `IndexError` is modelled by `Except`.
-/

/-- Python list indexing `xs[i]` with negative-index wraparound; `none` models
an `IndexError`. -/
def pyGet {α : Type} (xs : List α) (i : Int) : Option α :=
  if 0 ≤ i then xs[i.toNat]?
  else if 0 ≤ (xs.length : Int) + i then xs[((xs.length : Int) + i).toNat]?
  else none

/-- Python substring test `needle in hay`. -/
def pyContains (hay needle : String) : Bool :=
  (List.range (hay.data.length + 1)).any (fun i => needle.data.isPrefixOf (hay.data.drop i))

/-- Character of `s` at index `i`; total, used only at indices the program
clamps into range. -/
def charAt (s : String) (i : Nat) : Char := s.data.getD i (Char.ofNat 0)

/-- Python slice `s[a:b]` on a string (character indices). -/
def pySliceStr (s : String) (a b : Nat) : String := String.mk ((s.data.drop a).take (b - a))

/-- Python `s.lstrip().rstrip()`. -/
def pyStrip (s : String) : String :=
  String.mk (((s.data.dropWhile Char.isWhitespace).reverse.dropWhile Char.isWhitespace).reverse)

def squote : Char := Char.ofNat 39

def dquote : Char := Char.ofNat 34

/-- The fixed keyword set `C_CPP_KEYWORDS` of `SRT.py` (membership is all
that is used, so a list models the Python set). -/
def C_CPP_KEYWORDS : List String :=
  ["auto", "break", "case", "catch", "char", "const",
   "continue", "default", "do", "double", "else",
   "enum", "extern", "float", "for", "goto", "if",
   "int", "long", "register", "return", "short",
   "signed", "sizeof", "static", "struct", "switch", "try",
   "typedef", "union", "unsigned", "void", "volatile", "while", "when"]

/-- Function `are_all_letters_uppercase` from `SRT.py`: every alphabetic character of
`s` is upper case (vacuously true when there is none). -/
def are_all_letters_uppercase (s : String) : Bool :=
  (s.data.filter (fun c => c.isAlpha)).all (fun c => c.isUpper)

/-- The quote/parenthesis adjacency test of `name_filter` (the first `if` of
the loop body): character indices are clamped exactly as in the source
(`max(0, start - 1)` and `min(len(lstr) - 1, end)`). -/
def nf_skip (lstr : String) (s e : Nat) : Bool :=
  charAt lstr (s - 1) == squote || charAt lstr (s - 1) == dquote ||
  charAt lstr (min (lstr.data.length - 1) e) == squote ||
  charAt lstr (min (lstr.data.length - 1) e) == dquote ||
  charAt lstr (s - 1) == ')' || charAt lstr (min (lstr.data.length - 1) e) == '('

/-- The loop of `name_filter`, with the accumulated result list `res`. -/
def nf_loop (lstr : String) (cap_assert : Bool) : List (Nat × Nat) → List String → List String
  | [], res => res
  | (s, e) :: rest, res =>
    if nf_skip lstr s e then nf_loop lstr cap_assert rest res
    else
      let tok := pySliceStr lstr s e
      if !(res.contains tok) && !(C_CPP_KEYWORDS.contains tok) &&
          (!(are_all_letters_uppercase tok) || !cap_assert) then
        nf_loop lstr cap_assert rest (res ++ [tok])
      else nf_loop lstr cap_assert rest res

/-- Function `name_filter` from `SRT.py`: `it` is the list of match spans
(start, end) produced by `C_VAR_NAME.finditer` over `lstr`. -/
def name_filter (lstr : String) (it : List (Nat × Nat)) (cap_assert : Bool) : List String :=
  nf_loop lstr cap_assert it []

/-- First character class of the pattern `C_VAR_NAME`: `[_a-zA-Z]`. -/
def isHeadChar (c : Char) : Bool := c == '_' || c.isAlpha

/-- Second character class of the pattern `C_VAR_NAME`: letters, digits,
underscore, dot, square brackets. -/
def isTailChar (c : Char) : Bool :=
  isHeadChar c || c.isDigit || c == '.' || c == '[' || c == ']'

/-- Length of the maximal prefix whose characters satisfy `p`. -/
def runLen (p : Char → Bool) : List Char → Nat
  | [] => 0
  | c :: cs => if p c then runLen p cs + 1 else 0

/-- Scanner for `re.finditer` of the pattern `[_a-zA-Z]+[_a-zA-Z0-9.\[\]]*`:
at each position, a maximal run of head characters followed by a maximal run
of tail characters yields one match span.  The fuel argument exceeds the
number of characters, so it never runs out. -/
def scanAux : Nat → List Char → Nat → List (Nat × Nat)
  | 0, _, _ => []
  | _ + 1, [], _ => []
  | fuel + 1, c :: cs, i =>
    if isHeadChar c then
      let h := runLen isHeadChar (c :: cs)
      let t := runLen isTailChar ((c :: cs).drop h)
      (i, i + h + t) :: scanAux fuel ((c :: cs).drop (h + t)) (i + h + t)
    else scanAux fuel cs (i + 1)

/-- The match spans of `C_VAR_NAME.finditer(s)`. -/
def finditer (s : String) : List (Nat × Nat) :=
  scanAux (s.data.length + 1) s.data 0

/-- The token text of a match span. -/
def spanText (lstr : String) (p : Nat × Nat) : String := pySliceStr lstr p.1 p.2

/-- One filesystem entry: relative path (as `rglob` yields it), basename,
and file content as a list of lines. -/
structure FSEntry where
  path : String
  base : String
  lines : List String
deriving DecidableEq, Repr

/-- The directory tree under the process working directory
(`pathlib.Path()`). -/
structure FS where
  entries : List FSEntry
deriving DecidableEq, Repr

/-- Search `pathlib.Path().rglob(name)` for a wildcard-free `name`: every entry
whose basename equals `name`, in traversal order. -/
def rglob (fs : FS) (name : String) : List String :=
  (fs.entries.filter (fun e => e.base == name)).map (fun e => e.path)

/-- Read `open(...).readlines()` for a path produced by `rglob` (all such paths
are present in the tree). -/
def readLines (fs : FS) (p : String) : List String :=
  match fs.entries.find? (fun e => e.path == p) with
  | some e => e.lines
  | none => []

/-- Access `lines[ln - 1]` as a string, with Python's index arithmetic; the
out-of-range default cannot occur for the positive line numbers of the data
model once `ln <= len(lines)` has been checked, as in `deal_duplicate`. -/
def lineAt (lines : List String) (ln : Nat) : String :=
  (pyGet lines ((ln : Int) - 1)).getD ""

/-- The body of the candidate loop of `deal_duplicate`: `true` iff the file
is kept (none of the three `continue`s fires). -/
def dd_ok (fs : FS) (ln co : Nat) (func_name : String) (file : String) : Bool :=
  let lines := readLines fs file
  if lines.length < ln then false
  else if (lineAt lines ln).length < co then false
  else if func_name ≠ "" then (lines.take ln).any (fun line => pyContains line func_name)
  else true

/-- The candidate loop of `deal_duplicate`, accumulating `res`. -/
def dd_loop (fs : FS) (ln co : Nat) (func_name : String) : List String → List String → List String
  | [], res => res
  | f :: rest, res =>
    if dd_ok fs ln co func_name f then dd_loop fs ln co func_name rest (res ++ [f])
    else dd_loop fs ln co func_name rest res

/-- Function `deal_duplicate` from `SRT.py`: returns `(1, None)` for ambiguity,
`(0, res[0])` for a unique surviving candidate, `(-1, None)` for none. -/
def deal_duplicate (fs : FS) (ln co : Nat) (files : List String) (func_name : String) :
    Int × Option String :=
  let res := dd_loop fs ln co func_name files []
  if 1 < res.length then (1, none)
  else if res.length = 1 then (0, res.head?)
  else (-1, none)

/-- Constant `SVFTag.DefectType.PL`. -/
def DT_PL : String := "Partial Leak"

/-- Constant `SVFTag.true`. -/
def FLAG_TRUE : String := "True"

/-- Constant `SVFTag.false`. -/
def FLAG_FALSE : String := "False"

/-- Constant `TransformMessage.AC`. -/
def MSG_AC : String := ""

/-- Constant `TransformMessage.DFF`. -/
def MSG_DFF : String := "Duplicated Files Found"

/-- Constant `TransformMessage.NSF`. -/
def MSG_NSF : String := "No Such File"

/-- Constant `TransformMessage.DFFIC`. -/
def MSG_DFFIC : String := "Duplicated Files Found In Conditions Analysis"

/-- Constant `TransformMessage.NSFIC`. -/
def MSG_NSFIC : String := "No Such File In Conditions Analysis"

/-- A primary warning location `{fl, ln, cl}`. -/
structure Loc where
  fl : String
  ln : Nat
  cl : Nat
deriving DecidableEq, Repr

/-- A branch location `{fl, ln}` of a conditional free path. -/
structure BranchLoc where
  fl : String
  ln : Nat
deriving DecidableEq, Repr

/-- A conditional free path entry; `code` is the `CodeNear` key, absent on
input. -/
structure CFP where
  bl : BranchLoc
  bc : String
  code : Option String
deriving DecidableEq, Repr

/-- A warning record with the fields the enrichment touches. -/
structure Warn where
  dt : String
  loc : Loc
  func : String
  cfps : List CFP
  v : List String
  code : List String
  flag : String
  msg : String
deriving DecidableEq, Repr

/-- The uncaught Python exceptions the pipeline can raise. -/
inductive PyExc where
  | indexError
deriving DecidableEq, Repr

/-- Step 0 of the loop body: initialize the four enrichment keys. -/
def initWarn (w : Warn) : Warn := { w with v := [], code := [], flag := "", msg := "" }

/-- The excerpt slice of step 3:
`lines[max(0, l - 1 - R) : min(len(lines), l + R)]`, each line
`lstrip().rstrip()`-ed.  Truncated `Nat` subtraction is Python's
`max(0, l - 1 - R)`. -/
def excerpt (lines : List String) (l R : Nat) : List String :=
  ((lines.drop (l - 1 - R)).take (min lines.length (l + R) - (l - 1 - R))).map pyStrip

/-- Lines `a` through `b` inclusive of a file, 1-indexed. -/
def linesFromTo (lines : List String) (a b : Nat) : List String :=
  (lines.drop (a - 1)).take (b + 1 - a)

/-- Excerpt `lines[l - 1].lstrip().rstrip()` of an opened conditional-path file;
an out-of-range line raises `IndexError`. -/
def condExcerpt (fs : FS) (src : String) (l : Nat) : Except PyExc String :=
  match pyGet (readLines fs src) ((l : Int) - 1) with
  | some line => .ok (pyStrip line)
  | none => .error .indexError

/-- Step 3.1 of the loop body: the `for cond in conditional_paths` loop.
`wloc` is the warning's (already primary-resolved) location, whose line and
column feed `deal_duplicate`; `flag`/`msg` are the warning's current
`SuccessTransform`/`TransformMessage` values.  Each `continue` of the source
moves to the next conditional path. -/
def processCFPs (fs : FS) (wloc : Loc) :
    List CFP → String → String → Except PyExc (List CFP × String × String)
  | [], flag, msg => .ok ([], flag, msg)
  | cond :: rest, flag, msg =>
    let mts := rglob fs cond.bl.fl
    if mts.length = 1 then
      let src := mts.headD ""
      let cond1 : CFP := { cond with bl := { cond.bl with fl := src } }
      match condExcerpt fs src cond.bl.ln with
      | .error exc => .error exc
      | .ok line =>
        match processCFPs fs wloc rest flag msg with
        | .error exc => .error exc
        | .ok (cs, f, m) => .ok ({ cond1 with code := some line } :: cs, f, m)
    else if mts.length = 0 then
      match processCFPs fs wloc rest FLAG_FALSE MSG_NSF with
      | .error exc => .error exc
      | .ok (cs, f, m) => .ok (cond :: cs, f, m)
    else
      let d := deal_duplicate fs wloc.ln wloc.cl mts ""
      if d.1 = 1 then
        match processCFPs fs wloc rest FLAG_FALSE MSG_DFFIC with
        | .error exc => .error exc
        | .ok (cs, f, m) => .ok (cond :: cs, f, m)
      else if d.1 = -1 then
        match processCFPs fs wloc rest FLAG_FALSE MSG_NSFIC with
        | .error exc => .error exc
        | .ok (cs, f, m) => .ok (cond :: cs, f, m)
      else
        let src := d.2.getD ""
        match condExcerpt fs src cond.bl.ln with
        | .error exc => .error exc
        | .ok line =>
          match processCFPs fs wloc rest flag msg with
          | .error exc => .error exc
          | .ok (cs, f, m) => .ok ({ cond with code := some line } :: cs, f, m)

/-- Steps 2 through the end of the loop body, entered with the source file
`src` to open: variable-name inference, excerpting, the PartialLeak branch,
and the final `warn[Flag] = "True"; warn[Msg] = ""` assignments, which run
unconditionally after the `with` block. -/
def enrich (fs : FS) (copy_range : Nat) (cap_not_name : Bool) (w : Warn) (src : String) :
    Except PyExc Warn :=
  let lines := readLines fs src
  match pyGet lines ((w.loc.ln : Int) - 1) with
  | none => .error .indexError
  | some line =>
    let w1 := { w with v := name_filter line (finditer line) cap_not_name,
                       code := excerpt lines w.loc.ln copy_range }
    if w1.dt = DT_PL then
      match processCFPs fs w1.loc w1.cfps w1.flag w1.msg with
      | .error exc => .error exc
      | .ok (cs, f, m) =>
        let w2 := { w1 with cfps := cs, flag := f, msg := m }
        .ok { w2 with flag := FLAG_TRUE, msg := MSG_AC }
    else
      .ok { w1 with flag := FLAG_TRUE, msg := MSG_AC }

/-- The per-warning loop body of `__main__`. -/
def processWarn (fs : FS) (copy_range : Nat) (cap_not_name : Bool) (warn : Warn) :
    Except PyExc Warn :=
  let w := initWarn warn
  let mts := rglob fs w.loc.fl
  if mts.length = 1 then
    enrich fs copy_range cap_not_name
      { w with loc := { w.loc with fl := mts.headD "" } } (mts.headD "")
  else if mts.length = 0 then
    .ok { w with flag := FLAG_FALSE, msg := MSG_NSF }
  else
    let d := deal_duplicate fs w.loc.ln w.loc.cl mts w.func
    if d.1 = 1 then .ok { w with flag := FLAG_FALSE, msg := MSG_DFF }
    else if d.1 = -1 then .ok { w with flag := FLAG_FALSE, msg := MSG_NSF }
    else enrich fs copy_range cap_not_name w (d.2.getD "")

/-- The `for warn in report` loop: an uncaught exception aborts the whole
run (no output file is written). -/
def runReport (fs : FS) (copy_range : Nat) (cap_not_name : Bool) :
    List Warn → Except PyExc (List Warn)
  | [] => .ok []
  | w :: rest =>
    match processWarn fs copy_range cap_not_name w with
    | .error exc => .error exc
    | .ok w1 =>
      match runReport fs copy_range cap_not_name rest with
      | .error exc => .error exc
      | .ok ws => .ok (w1 :: ws)

/-- The recognized command-line options of `SRT.py`. -/
structure Config where
  input_file : String
  output_file : String
  root_dir : String
  copy_range : Nat
  cap_not_name : Bool
deriving DecidableEq, Repr

/-- The transformation the program applies to the loaded report.  Both
filename searches call `pathlib.Path().rglob`, i.e. run from the process
working directory `fs`; the parsed `root_dir` option is bound to `rdir` in
the source and never read afterwards. -/
def runSRT (cfg : Config) (fs : FS) (report : List Warn) : Except PyExc (List Warn) :=
  runReport fs cfg.copy_range cfg.cap_not_name report

/-- A tree with one file `main.c`; the conditional path below references a
file `ghost.c` that does not exist in it. -/
def fsC1 : FS := ⟨[⟨"main.c", "main.c", ["int main() \x7b", "  free(p);", "\x7d"]⟩]⟩

/-- A PartialLeak warning whose single conditional free path names the
missing file `ghost.c`. -/
def warnC1 : Warn :=
  { dt := "Partial Leak", loc := { fl := "main.c", ln := 2, cl := 3 }, func := "main",
    cfps := [{ bl := { fl := "ghost.c", ln := 1 }, bc := "True", code := none }],
    v := [], code := [], flag := "", msg := "" }

/-- A tree holding the primary file `p.c` and one file `b.c`; `ghost.c`
referenced by the first conditional path below does not exist. -/
def fsC2 : FS := ⟨[⟨"src/b.c", "b.c", ["xx", "yy"]⟩, ⟨"p.c", "p.c", ["free(q);"]⟩]⟩

/-- A conditional free path referencing the missing file `ghost.c`. -/
def condGhost : CFP := { bl := { fl := "ghost.c", ln := 1 }, bc := "True", code := none }

/-- A conditional free path referencing line 2 of the uniquely-matched
`b.c`. -/
def condB : CFP := { bl := { fl := "b.c", ln := 2 }, bc := "False", code := none }

/-- A PartialLeak warning with two conditional free paths: the first fails
to resolve (`ghost.c`), the second (`b.c`) has a unique match. -/
def warnC2 : Warn :=
  { dt := "Partial Leak", loc := { fl := "p.c", ln := 1, cl := 1 }, func := "",
    cfps := [condGhost, condB], v := [], code := [], flag := "", msg := "" }

/-- Two files named `f.c`: only `y/f.c` has a second line, so disambiguation
at line 2 keeps exactly that one. -/
def fsC3 : FS := ⟨[⟨"x/f.c", "f.c", ["a"]⟩, ⟨"y/f.c", "f.c", ["bb", "cc"]⟩]⟩

/-- A warning at line 2 of `f.c`, resolvable only through disambiguation
among the two matches of `fsC3`. -/
def warnC3 : Warn :=
  { dt := "Never Free", loc := { fl := "f.c", ln := 2, cl := 1 }, func := "",
    cfps := [], v := [], code := [], flag := "", msg := "" }

/-- A unique primary file `p.c` and two files named `f.c`: both pass the
corroboration checks at line 1, only `d2/f.c` passes them at line 2. -/
def fsC4 : FS := ⟨[⟨"p.c", "p.c", ["int main()\x7bfree(q);\x7d"]⟩,
                   ⟨"d1/f.c", "f.c", ["aaaa"]⟩, ⟨"d2/f.c", "f.c", ["bbbb", "cccc"]⟩]⟩

/-- A conditional free path at line 2 of the doubly-matched `f.c`. -/
def condC4 : CFP := { bl := { fl := "f.c", ln := 2 }, bc := "True", code := none }

/-- The primary location of the surrounding warning: line 1, column 2. -/
def wlocC4 : Loc := { fl := "p.c", ln := 1, cl := 2 }

/-- C1: a PartialLeak record whose conditional free path fails to resolve is
claimed to end the pipeline as Failure with the conditional-path-specific
message.  In the code the failure branch of the conditional loop sets
`warn[Msg]` to plain `"No Such File"` (not the `"... In Conditions
Analysis"` variant), and the final `warn[Flag] = "True"; warn[Msg] = ""`
assignments run unconditionally after the `with` block, so the record ends
as Success with an empty message. -/
theorem C1_conditional_failure_overwritten_by_finalize :
    processCFPs fsC1 { fl := "main.c", ln := 2, cl := 3 } warnC1.cfps "" ""
      = .ok (warnC1.cfps, FLAG_FALSE, MSG_NSF)
    ∧ (processWarn fsC1 5 true warnC1).toOption.map (fun w => (w.flag, w.msg))
      = some (FLAG_TRUE, MSG_AC) := by
  constructor
  · rfl
  · rfl

/-- C2 counterexample: after the first conditional free path of `warnC2`
fails to resolve, the second one is still processed — its file field is
overwritten with the resolved path and its excerpt is stored — refuting the
claim that processing of the warning's remaining conditional paths stops. -/
theorem C2_counterexample :
    (processWarn fsC2 5 true warnC2).toOption.map
        (fun w => w.cfps.map (fun c => (c.bl.fl, c.code)))
      = some [("ghost.c", none), ("src/b.c", some "yy")] := by
  rfl

/-- C3: the claim says a successful disambiguation among multiple matches
also overwrites `primaryLocation.file` with the resolved path.  In the code
only the unique-match branch assigns `warn[Loc][f]`; when `deal_duplicate`
returns the unique survivor the field keeps the bare filename even though
the record is finalized as Success. -/
theorem C3_disambiguated_file_not_overwritten :
    deal_duplicate fsC3 2 1 (rglob fsC3 "f.c") "" = (0, some "y/f.c")
    ∧ (processWarn fsC3 5 true warnC3).toOption.map (fun w => (w.flag, w.msg, w.loc.fl))
      = some (FLAG_TRUE, MSG_AC, "f.c") := by
  constructor
  · rfl
  · rfl

/-- C4 counterexample: for `condC4` (branch line 2) under `fsC4`, the code
reports Duplicated Files In Conditions Analysis and stores no excerpt,
because `deal_duplicate` is called with the primary warning's line 1; with
the branch's own line 2 — as the claim describes — disambiguation would have
returned the unique survivor `d2/f.c`. -/
theorem C4_counterexample :
    (processCFPs fsC4 wlocC4 [condC4] "" "").toOption.map
        (fun r => (r.1.map (fun c => (c.bl.fl, c.code)), r.2))
      = some ([("f.c", none)], (FLAG_FALSE, MSG_DFFIC))
    ∧ deal_duplicate fsC4 condC4.bl.ln wlocC4.cl (rglob fsC4 condC4.bl.fl) ""
      = (0, some "d2/f.c") := by
  constructor
  · rfl
  · rfl

/-- C5: the output of the run does not depend on the `root_dir` option at
all — `args.root_dir` is bound to `rdir` and never used; every `rglob`
search runs from the process working directory.  The claim that resolution
results depend on the configured source-tree root therefore fails for any
setting that differs from the working directory. -/
theorem C5_root_dir_ignored :
    ∀ (cfg : Config) (d : String) (fs : FS) (report : List Warn),
      runSRT { cfg with root_dir := d } fs report = runSRT cfg fs report :=
  fun _ _ _ _ => rfl

/-- Two files named `h.c`, both empty, so neither survives the
corroboration checks at line 1. -/
def fsHC : FS := ⟨[⟨"a/h.c", "h.c", []⟩, ⟨"b/h.c", "h.c", []⟩]⟩

/-- A conditional free path referencing the doubly-matched empty `h.c`. -/
def condHC : CFP := { bl := { fl := "h.c", ln := 1 }, bc := "True", code := none }

/-- A primary location at line 1, column 0. -/
def wlocHC : Loc := { fl := "", ln := 1, cl := 0 }

/-- C2, amended: when a conditional free path of a PartialLeak warning fails
to resolve (no match, ambiguity, or no surviving candidate), the warning's
status fields are set to the failure value for that mode and processing
continues with the warning's next conditional path; the failing entry itself
is left untouched and later entries are processed exactly as they otherwise
would be.  (As the source sets the zero-match message, it is the
non-conditional `"No Such File"`.) -/
theorem C2_amended_continue_with_next_path :
    (∀ (fs : FS) (wloc : Loc) (cond : CFP) (rest : List CFP) (flag msg : String),
      rglob fs cond.bl.fl = [] →
      processCFPs fs wloc (cond :: rest) flag msg
        = Except.map (fun r => (cond :: r.1, r.2)) (processCFPs fs wloc rest FLAG_FALSE MSG_NSF))
    ∧ (∀ (fs : FS) (wloc : Loc) (cond : CFP) (rest : List CFP) (flag msg : String),
      2 ≤ (rglob fs cond.bl.fl).length →
      (deal_duplicate fs wloc.ln wloc.cl (rglob fs cond.bl.fl) "").1 = 1 →
      processCFPs fs wloc (cond :: rest) flag msg
        = Except.map (fun r => (cond :: r.1, r.2)) (processCFPs fs wloc rest FLAG_FALSE MSG_DFFIC))
    ∧ (∀ (fs : FS) (wloc : Loc) (cond : CFP) (rest : List CFP) (flag msg : String),
      2 ≤ (rglob fs cond.bl.fl).length →
      (deal_duplicate fs wloc.ln wloc.cl (rglob fs cond.bl.fl) "").1 = -1 →
      processCFPs fs wloc (cond :: rest) flag msg
        = Except.map (fun r => (cond :: r.1, r.2)) (processCFPs fs wloc rest FLAG_FALSE MSG_NSFIC)) := by
  refine ⟨?_, ?_, ?_⟩
  · intro fs wloc cond rest flag msg h
    simp only [processCFPs, h]
    cases hrec : processCFPs fs wloc rest FLAG_FALSE MSG_NSF with
    | error exc => simp [Except.map]
    | ok r => obtain ⟨cs, f, m⟩ := r; simp [Except.map]
  · intro fs wloc cond rest flag msg hlen hd
    simp only [processCFPs]
    rw [if_neg (by omega), if_neg (by omega), if_pos hd]
    cases hrec : processCFPs fs wloc rest FLAG_FALSE MSG_DFFIC with
    | error exc => simp [Except.map]
    | ok r => obtain ⟨cs, f, m⟩ := r; simp [Except.map]
  · intro fs wloc cond rest flag msg hlen hd
    have hne : ¬ (deal_duplicate fs wloc.ln wloc.cl (rglob fs cond.bl.fl) "").1 = 1 := by
      omega
    simp only [processCFPs]
    rw [if_neg (by omega), if_neg (by omega), if_neg hne, if_pos hd]
    cases hrec : processCFPs fs wloc rest FLAG_FALSE MSG_NSFIC with
    | error exc => simp [Except.map]
    | ok r => obtain ⟨cs, f, m⟩ := r; simp [Except.map]

/-- Witness for the amended C2, at the three concrete failure modes. -/
theorem C2_amended_witness :
    (processCFPs fsC2 warnC2.loc (condGhost :: [condB]) "" ""
      = Except.map (fun r => (condGhost :: r.1, r.2))
          (processCFPs fsC2 warnC2.loc [condB] FLAG_FALSE MSG_NSF))
    ∧ (processCFPs fsC4 wlocC4 (condC4 :: []) "" ""
      = Except.map (fun r => (condC4 :: r.1, r.2))
          (processCFPs fsC4 wlocC4 [] FLAG_FALSE MSG_DFFIC))
    ∧ (processCFPs fsHC wlocHC (condHC :: []) "" ""
      = Except.map (fun r => (condHC :: r.1, r.2))
          (processCFPs fsHC wlocHC [] FLAG_FALSE MSG_NSFIC)) :=
  ⟨C2_amended_continue_with_next_path.1 fsC2 warnC2.loc condGhost [condB] "" "" (by decide),
   C2_amended_continue_with_next_path.2.1 fsC4 wlocC4 condC4 [] "" "" (by decide) (by decide),
   C2_amended_continue_with_next_path.2.2 fsHC wlocHC condHC [] "" "" (by decide) (by decide)⟩

/-- C4, amended: when a Conditional Free Path's filename has multiple
filesystem matches, disambiguation corroborates candidates using the
*primary warning's* line number, the primary warning's column, and no
function-name hint; the step's outcome is determined by `deal_duplicate`
evaluated at those arguments (the branch's own line enters only the excerpt
on success). -/
theorem C4_amended_primary_line_used :
    ∀ (fs : FS) (wloc : Loc) (cond : CFP) (rest : List CFP) (flag msg : String),
      2 ≤ (rglob fs cond.bl.fl).length →
      processCFPs fs wloc (cond :: rest) flag msg
        = (if (deal_duplicate fs wloc.ln wloc.cl (rglob fs cond.bl.fl) "").1 = 1 then
             Except.map (fun r => (cond :: r.1, r.2))
               (processCFPs fs wloc rest FLAG_FALSE MSG_DFFIC)
           else if (deal_duplicate fs wloc.ln wloc.cl (rglob fs cond.bl.fl) "").1 = -1 then
             Except.map (fun r => (cond :: r.1, r.2))
               (processCFPs fs wloc rest FLAG_FALSE MSG_NSFIC)
           else
             match condExcerpt fs
                 ((deal_duplicate fs wloc.ln wloc.cl (rglob fs cond.bl.fl) "").2.getD "")
                 cond.bl.ln with
             | .error exc => .error exc
             | .ok line =>
               Except.map (fun r => ({ cond with code := some line } :: r.1, r.2))
                 (processCFPs fs wloc rest flag msg)) := by
  intro fs wloc cond rest flag msg hlen
  simp only [processCFPs]
  rw [if_neg (by omega), if_neg (by omega)]
  by_cases h1 : (deal_duplicate fs wloc.ln wloc.cl (rglob fs cond.bl.fl) "").1 = 1
  · rw [if_pos h1, if_pos h1]
    cases hrec : processCFPs fs wloc rest FLAG_FALSE MSG_DFFIC with
    | error exc => simp [Except.map]
    | ok r => obtain ⟨cs, f, m⟩ := r; simp [Except.map]
  · rw [if_neg h1, if_neg h1]
    by_cases h2 : (deal_duplicate fs wloc.ln wloc.cl (rglob fs cond.bl.fl) "").1 = -1
    · rw [if_pos h2, if_pos h2]
      cases hrec : processCFPs fs wloc rest FLAG_FALSE MSG_NSFIC with
      | error exc => simp [Except.map]
      | ok r => obtain ⟨cs, f, m⟩ := r; simp [Except.map]
    · rw [if_neg h2, if_neg h2]
      cases hexc : condExcerpt fs
          ((deal_duplicate fs wloc.ln wloc.cl (rglob fs cond.bl.fl) "").2.getD "")
          cond.bl.ln with
      | error exc => rfl
      | ok line =>
        cases hrec : processCFPs fs wloc rest flag msg with
        | error exc => simp [Except.map]
        | ok r => obtain ⟨cs, f, m⟩ := r; simp [Except.map]

/-- Witness for the amended C4, at the concrete ambiguous instance of
`fsC4`. -/
theorem C4_amended_witness :
    processCFPs fsC4 wlocC4 (condC4 :: []) "" ""
      = (if (deal_duplicate fsC4 wlocC4.ln wlocC4.cl (rglob fsC4 condC4.bl.fl) "").1 = 1 then
           Except.map (fun r => (condC4 :: r.1, r.2))
             (processCFPs fsC4 wlocC4 [] FLAG_FALSE MSG_DFFIC)
         else if (deal_duplicate fsC4 wlocC4.ln wlocC4.cl (rglob fsC4 condC4.bl.fl) "").1 = -1 then
           Except.map (fun r => (condC4 :: r.1, r.2))
             (processCFPs fsC4 wlocC4 [] FLAG_FALSE MSG_NSFIC)
         else
           match condExcerpt fsC4
               ((deal_duplicate fsC4 wlocC4.ln wlocC4.cl (rglob fsC4 condC4.bl.fl) "").2.getD "")
               condC4.bl.ln with
           | .error exc => .error exc
           | .ok line =>
             Except.map (fun r => ({ condC4 with code := some line } :: r.1, r.2))
               (processCFPs fsC4 wlocC4 [] "" "")) :=
  C4_amended_primary_line_used fsC4 wlocC4 condC4 [] "" "" (by decide)

/-- The claim's description of a candidate that survives corroboration: it
has at least `ln` lines, its `ln`-th (1-indexed) line has at least `co`
characters, and, when the hint is non-empty, some line among the first `ln`
contains the hint as a substring. -/
def survives (fs : FS) (ln co : Nat) (fn : String) (f : String) : Bool :=
  decide (ln ≤ (readLines fs f).length) &&
  decide (co ≤ ((readLines fs f).getD (ln - 1) "").length) &&
  (fn == "" || ((readLines fs f).take ln).any (fun s => pyContains s fn))

/-- The `continue`-chain of the candidate loop, as one boolean equation. -/
theorem chainEq (L : List String) (s : String) (ln co : Nat) (fn : String) (anyv : Bool) :
    (if L.length < ln then false else if s.length < co then false
     else if fn ≠ "" then anyv else true)
    = (decide (ln ≤ L.length) && decide (co ≤ s.length) && (fn == "" || anyv)) := by
  by_cases h1 : L.length < ln
  · rw [if_pos h1]
    have hd : decide (ln ≤ L.length) = false := by simp only [decide_eq_false_iff_not]; omega
    rw [hd]; simp
  · rw [if_neg h1]
    have hd1 : decide (ln ≤ L.length) = true := by simp only [decide_eq_true_eq]; omega
    rw [hd1]
    by_cases h2 : s.length < co
    · rw [if_pos h2]
      have hd : decide (co ≤ s.length) = false := by simp only [decide_eq_false_iff_not]; omega
      rw [hd]; simp
    · rw [if_neg h2]
      have hd2 : decide (co ≤ s.length) = true := by simp only [decide_eq_true_eq]; omega
      rw [hd2]
      by_cases h3 : fn = ""
      · subst h3; simp
      · rw [if_pos h3]
        have hb : (fn == "") = false := by simp [h3]
        rw [hb]
        simp

/-- The imperative candidate loop is a filter. -/
theorem dd_loop_eq_filter (fs : FS) (ln co : Nat) (fn : String) :
    ∀ (files res : List String),
      dd_loop fs ln co fn files res = res ++ files.filter (dd_ok fs ln co fn) := by
  intro files
  induction files with
  | nil => intro res; simp [dd_loop]
  | cons f rest ih =>
    intro res
    simp only [dd_loop, List.filter_cons]
    cases h : dd_ok fs ln co fn f
    · simp [ih]
    · simp [ih]

/-- For positive line numbers, the loop body keeps exactly the candidates
the claim describes. -/
theorem dd_ok_eq_survives (fs : FS) (ln co : Nat) (fn : String) (f : String) (h : 1 ≤ ln) :
    dd_ok fs ln co fn f = survives fs ln co fn f := by
  have hidx : ((ln : Int) - 1).toNat = ln - 1 := by omega
  have hline : lineAt (readLines fs f) ln = (readLines fs f).getD (ln - 1) "" := by
    unfold lineAt pyGet
    rw [if_pos (by omega : (0 : Int) ≤ (ln : Int) - 1), hidx, List.getD_eq_getElem?_getD]
  simp only [dd_ok, survives]
  rw [hline]
  exact chainEq (readLines fs f) ((readLines fs f).getD (ln - 1) "") ln co fn _

/-- C6: `deal_duplicate` rejects exactly the candidates with fewer than
`ln` lines, or whose `ln`-th line is shorter than `co` characters, or —
for a non-empty hint — none of whose first `ln` lines contains the hint;
it returns `(-1, None)` when no candidate survives, `(0, f)` when exactly
the single candidate `f` survives, and `(1, None)` when more than one
survives. -/
theorem C6_deal_duplicate_spec (fs : FS) (ln co : Nat) (files : List String) (fn : String)
    (hln : 1 ≤ ln) (_hne : files ≠ []) :
    (deal_duplicate fs ln co files fn = (-1, none)
      ↔ files.filter (survives fs ln co fn) = [])
    ∧ (∀ g, deal_duplicate fs ln co files fn = (0, some g)
      ↔ files.filter (survives fs ln co fn) = [g])
    ∧ (deal_duplicate fs ln co files fn = (1, none)
      ↔ 2 ≤ (files.filter (survives fs ln co fn)).length) := by
  have hdd : deal_duplicate fs ln co files fn =
      (if 1 < (files.filter (survives fs ln co fn)).length then ((1 : Int), (none : Option String))
       else if (files.filter (survives fs ln co fn)).length = 1 then
         (0, (files.filter (survives fs ln co fn)).head?)
       else (-1, none)) := by
    unfold deal_duplicate
    rw [dd_loop_eq_filter, List.nil_append,
        List.filter_congr (fun x _ => dd_ok_eq_survives fs ln co fn x hln)]
  rw [hdd]
  cases hfil : files.filter (survives fs ln co fn) with
  | nil => simp
  | cons a t =>
    cases t with
    | nil => simp
    | cons b t2 =>
      rw [if_pos (by simp only [List.length_cons]; omega)]
      refine ⟨iff_of_false (by simp) (by simp), fun g => iff_of_false (by simp) (by simp),
        iff_of_true rfl (by simp only [List.length_cons]; omega)⟩

/-- Witness for C6: under `fsC3`, only `y/f.c` survives corroboration at
line 2, column 1, and `deal_duplicate` returns it. -/
theorem C6_witness :
    deal_duplicate fsC3 2 1 ["x/f.c", "y/f.c"] "" = (0, some "y/f.c") :=
  ((C6_deal_duplicate_spec fsC3 2 1 ["x/f.c", "y/f.c"] "" (by decide) (by decide)).2.1
    "y/f.c").mpr (by decide)

/-- A `contains = false` test certifies non-membership. -/
theorem contains_false_not_mem {l : List String} {a : String}
    (h : l.contains a = false) : a ∉ l := by
  simp at h
  exact h

/-- Invariants of the `name_filter` loop, by induction on the spans with a
generalized accumulator: the loop appends a keyword-free, duplicate-free
subsequence of the span tokens, disjoint from the accumulator. -/
theorem nf_loop_props (lstr : String) (cap : Bool) :
    ∀ (spans : List (Nat × Nat)) (res : List String),
      ∃ extra, nf_loop lstr cap spans res = res ++ extra
        ∧ List.Sublist extra (spans.map (spanText lstr))
        ∧ extra.Nodup
        ∧ (∀ t ∈ extra, t ∉ res)
        ∧ (∀ t ∈ extra, C_CPP_KEYWORDS.contains t = false) := by
  intro spans
  induction spans with
  | nil =>
    intro res
    exact ⟨[], by simp [nf_loop], by simp, by simp, by simp, by simp⟩
  | cons se rest ih =>
    intro res
    obtain ⟨s, e⟩ := se
    by_cases hskip : nf_skip lstr s e
    · obtain ⟨extra, h1, h2, h3, h4, h5⟩ := ih res
      refine ⟨extra, ?_, ?_, h3, h4, h5⟩
      · simp only [nf_loop, if_pos hskip, h1]
      · exact h2.cons _
    · by_cases hcond : (!(res.contains (pySliceStr lstr s e))
          && !(C_CPP_KEYWORDS.contains (pySliceStr lstr s e))
          && (!(are_all_letters_uppercase (pySliceStr lstr s e)) || !cap)) = true
      · obtain ⟨extra, h1, h2, h3, h4, h5⟩ := ih (res ++ [pySliceStr lstr s e])
        have hc := hcond
        simp only [Bool.and_eq_true, Bool.not_eq_true'] at hc
        refine ⟨pySliceStr lstr s e :: extra, ?_, ?_, ?_, ?_, ?_⟩
        · simp only [nf_loop, if_neg hskip, if_pos hcond]
          rw [h1, List.append_assoc, List.singleton_append]
        · exact h2.cons₂ _
        · rw [List.nodup_cons]
          refine ⟨fun hmem => ?_, h3⟩
          exact h4 _ hmem (by simp)
        · intro t ht
          rcases List.mem_cons.mp ht with h | h
          · subst h; exact contains_false_not_mem hc.1.1
          · intro hr; exact h4 t h (List.mem_append_left _ hr)
        · intro t ht
          rcases List.mem_cons.mp ht with h | h
          · subst h; exact hc.1.2
          · exact h5 t h
      · obtain ⟨extra, h1, h2, h3, h4, h5⟩ := ih res
        refine ⟨extra, ?_, ?_, h3, h4, h5⟩
        · simp only [nf_loop, if_neg hskip, if_neg hcond, h1]
        · exact h2.cons _

/-- C7: for every source line and every span sequence, `name_filter`'s
output has no duplicate strings, contains no C/C++ keyword, and is a
subsequence of the span tokens in span order; in particular the line
`int for = while;` filters to the empty list. -/
theorem C7_name_filter_spec :
    (∀ (lstr : String) (it : List (Nat × Nat)) (cap : Bool),
      (name_filter lstr it cap).Nodup
      ∧ (∀ t ∈ name_filter lstr it cap, C_CPP_KEYWORDS.contains t = false)
      ∧ List.Sublist (name_filter lstr it cap) (it.map (spanText lstr)))
    ∧ name_filter "int for = while;" (finditer "int for = while;") true = [] := by
  constructor
  · intro lstr it cap
    obtain ⟨extra, h1, h2, h3, h4, h5⟩ := nf_loop_props lstr cap it []
    have hnf : name_filter lstr it cap = extra := by
      simp only [name_filter, h1, List.nil_append]
    rw [hnf]
    exact ⟨h3, h5, h2⟩
  · rfl

/-- Witness for C7: `x` survives filtering of `x = 1;`, and is certified
keyword-free by the theorem. -/
theorem C7_witness : C_CPP_KEYWORDS.contains "x" = false :=
  (C7_name_filter_spec.1 "x = 1;" [(0, 1)] true).2.1 "x" (by decide)

/-- The excerpt slice equals the 1-indexed window from `max 1 (l - R)` to
`min lastLine (l + R)` inclusive, mapped through trimming. -/
theorem excerpt_eq_window (lines : List String) (l R : Nat) (h : 1 ≤ l) :
    excerpt lines l R
      = (linesFromTo lines (max 1 (l - R)) (min lines.length (l + R))).map pyStrip := by
  unfold excerpt linesFromTo
  have hs : l - 1 - R = max 1 (l - R) - 1 := by omega
  rw [hs]
  have hc : min lines.length (l + R) - (max 1 (l - R) - 1)
      = min lines.length (l + R) + 1 - max 1 (l - R) := by omega
  rw [hc]

/-- C8: the code excerpt of a warning at (1-indexed) line `l` with copy
range `R` is exactly the trimmed lines `max 1 (l - R)` through
`min lastLine (l + R)` inclusive, in file order, and that is what a
successfully resolved record stores in `CodeNear`. -/
theorem C8_excerpt_window :
    (∀ (lines : List String) (l R : Nat), 1 ≤ l →
      excerpt lines l R
        = (linesFromTo lines (max 1 (l - R)) (min lines.length (l + R))).map pyStrip)
    ∧ (∀ (fs : FS) (R : Nat) (cap : Bool) (w : Warn) (p : String),
      rglob fs w.loc.fl = [p] → 1 ≤ w.loc.ln → w.loc.ln ≤ (readLines fs p).length →
      w.dt ≠ DT_PL →
      ∃ w1, processWarn fs R cap w = .ok w1
        ∧ w1.code = (linesFromTo (readLines fs p) (max 1 (w.loc.ln - R))
            (min (readLines fs p).length (w.loc.ln + R))).map pyStrip) := by
  constructor
  · exact excerpt_eq_window
  · intro fs R cap w p hg h1 h2 hdt
    have hidx : ((w.loc.ln : Int) - 1).toNat = w.loc.ln - 1 := by omega
    have hlt : w.loc.ln - 1 < (readLines fs p).length := by omega
    have hpy : pyGet (readLines fs p) ((w.loc.ln : Int) - 1)
        = some ((readLines fs p)[w.loc.ln - 1]) := by
      unfold pyGet
      rw [if_pos (by omega : (0 : Int) ≤ (w.loc.ln : Int) - 1), hidx]
      exact List.getElem?_eq_getElem hlt
    simp only [processWarn, initWarn, hg]
    simp only [List.length_cons, List.length_nil, List.headD_cons, if_pos rfl]
    simp only [enrich, hpy]
    simp only [if_true, if_neg hdt]
    exact ⟨_, rfl, excerpt_eq_window (readLines fs p) w.loc.ln R h1⟩

/-- A uniquely-named 12-line file, for the excerpt-window example of the
claim (warning at line 10, range 5, excerpt spanning lines 5 through 12). -/
def fsC8 : FS := ⟨[⟨"w.c", "w.c",
  [" l1 ", "l2", "l3", "l4", " l5 ", "l6", "l7", "l8", "l9", "l10", "l11", " l12 "]⟩]⟩

/-- A warning at line 10 of the 12-line file `w.c`. -/
def warnC8 : Warn :=
  { dt := "Never Free", loc := { fl := "w.c", ln := 10, cl := 0 }, func := "",
    cfps := [], v := [], code := [], flag := "", msg := "" }

/-- Witness for C8 at the claim's example: line 10, range 5, 12-line file. -/
theorem C8_witness :
    excerpt (readLines fsC8 "w.c") 10 5
      = (linesFromTo (readLines fsC8 "w.c") (max 1 (10 - 5))
          (min (readLines fsC8 "w.c").length (10 + 5))).map pyStrip
    ∧ ∃ w1, processWarn fsC8 5 true warnC8 = .ok w1
        ∧ w1.code = (linesFromTo (readLines fsC8 "w.c") (max 1 (warnC8.loc.ln - 5))
            (min (readLines fsC8 "w.c").length (warnC8.loc.ln + 5))).map pyStrip :=
  ⟨C8_excerpt_window.1 (readLines fsC8 "w.c") 10 5 (by decide),
   C8_excerpt_window.2 fsC8 5 true warnC8 "w.c" (by decide) (by decide) (by decide) (by decide)⟩

/-- A tree with a single one-line file `one.c`. -/
def fsC9 : FS := ⟨[⟨"one.c", "one.c", ["x"]⟩]⟩

/-- A warning claiming line 5 of the one-line file `one.c`. -/
def warnC9 : Warn :=
  { dt := "Never Free", loc := { fl := "one.c", ln := 5, cl := 0 }, func := "",
    cfps := [], v := [], code := [], flag := "", msg := "" }

/-- C9: when the primary filename has exactly one filesystem match, the
line `lines[l - 1]` is read with no bounds check (the line/column
corroboration of `deal_duplicate` runs only in the multiple-match branch),
so a reported line number beyond the file's length raises an uncaught
`IndexError` that aborts the whole run instead of marking the one record as
Failure. -/
theorem C9_index_error_aborts (fs : FS) (R : Nat) (cap : Bool) (w : Warn) (p : String)
    (hg : rglob fs w.loc.fl = [p]) (h2 : (readLines fs p).length < w.loc.ln) :
    processWarn fs R cap w = .error .indexError
    ∧ ∀ rest, runReport fs R cap (w :: rest) = .error .indexError := by
  have hidx : ((w.loc.ln : Int) - 1).toNat = w.loc.ln - 1 := by omega
  have hpy : pyGet (readLines fs p) ((w.loc.ln : Int) - 1) = none := by
    unfold pyGet
    rw [if_pos (by omega : (0 : Int) ≤ (w.loc.ln : Int) - 1), hidx]
    exact List.getElem?_eq_none (by omega)
  have hmain : processWarn fs R cap w = .error .indexError := by
    simp only [processWarn, initWarn, hg]
    simp only [List.length_cons, List.length_nil, List.headD_cons, if_pos rfl, if_true]
    simp only [enrich, hpy]
  exact ⟨hmain, fun rest => by simp only [runReport, hmain]⟩

/-- Witness for C9: the unique match `one.c` has 1 line, the warning
reports line 5, and the run aborts with `IndexError`. -/
theorem C9_witness :
    processWarn fsC9 5 true warnC9 = .error .indexError
    ∧ runReport fsC9 5 true [warnC9] = .error .indexError := by
  obtain ⟨ha, hb⟩ := C9_index_error_aborts fsC9 5 true warnC9 "one.c" (by decide) (by decide)
  exact ⟨ha, hb []⟩

/-- C10: `are_all_letters_uppercase` is vacuously true on any token with no
alphabetic character, so with the all-caps policy enabled the token `_` is
dropped from the filter's output (with the policy disabled it is kept). -/
theorem C10_all_caps_vacuous :
    (∀ s : String, (∀ c ∈ s.data, ¬ c.isAlpha) → are_all_letters_uppercase s = true)
    ∧ name_filter "_ = x;" (finditer "_ = x;") true = ["x"]
    ∧ name_filter "_ = x;" (finditer "_ = x;") false = ["_", "x"] := by
  refine ⟨?_, rfl, rfl⟩
  intro s h
  unfold are_all_letters_uppercase
  have hfil : s.data.filter (fun c => c.isAlpha) = [] := by
    rw [List.filter_eq_nil_iff]
    intro a ha
    simpa using h a ha
  rw [hfil]
  rfl

/-- Witness for C10 at the digit-and-underscore token `__12`. -/
theorem C10_witness : are_all_letters_uppercase "__12" = true :=
  C10_all_caps_vacuous.1 "__12" (by decide)
